import Mathlib

/-!
Verification of the sequential-flow task orchestrator (lib/edge-functions.cjs)
and its in-memory storage adapter (lib/storage.cjs).

The orchestrator is shallowly embedded: JavaScript values are modelled by
`Val`, the scripting engine by an abstract outcome (`EngineOutcome`), storage
adapters by explicit state-passing functions that may fail (`StorageAdapter`),
and each `execute`/`resume` run returns its result, the new storage state and
an event log recording every adapter call, engine resumption and `dispose()`.
-/

set_option autoImplicit false

namespace SeqFlow

/-- JavaScript runtime values, as far as the orchestrator inspects them:
`undefined`, `null`, booleans, numbers (modelled as integers), strings and
plain objects (association lists of fields).  Engine-produced state blobs are
opaque to the orchestrator, so any `Val` stands for them. -/
inductive Val where
  | vUndefined
  | vNull
  | vBool (b : Bool)
  | vNum (n : Int)
  | vStr (s : String)
  | vObj (fields : List (String × Val))

/-- JavaScript truthiness: `undefined`, `null`, `false`, `0` and the empty
string are falsy; every object is truthy. -/
def truthy : Val → Bool
  | .vUndefined => false
  | .vNull => false
  | .vBool b => b
  | .vNum n => n != 0
  | .vStr s => s != ""
  | .vObj _ => true

/-- A value that is absent (`undefined`) or `null`. -/
def isNullish : Val → Bool
  | .vUndefined => true
  | .vNull => true
  | _ => false

/-- Field lookup in an object literal; missing fields read as `undefined`. -/
def lookupField : List (String × Val) → String → Val
  | [], _ => .vUndefined
  | (k, v) :: rest, key => if k = key then v else lookupField rest key

/-- JavaScript property access `v[key]`: raises a TypeError on `null` and
`undefined`, yields the field on objects, and `undefined` on other
primitives. -/
def getProp : Val → String → Except String Val
  | .vUndefined, key => .error ("Cannot read properties of undefined (reading " ++ key ++ ")")
  | .vNull, key => .error ("Cannot read properties of null (reading " ++ key ++ ")")
  | .vObj fields, key => .ok (lookupField fields key)
  | _, _ => .ok .vUndefined

/-- The task record built by `execute` and `resume`.  Fields that a given
code path leaves absent hold `Val.vUndefined`; timestamps are milliseconds
since the epoch (`createdAt`/`updatedAt` are `none` when the path does not
set them). -/
structure Task where
  id : String
  name : String
  code : String
  status : String
  result : Val := .vUndefined
  error : Val := .vUndefined
  vmState : Val := .vUndefined
  pausedState : Val := .vUndefined
  fetchRequest : Val := .vUndefined
  createdAt : Option Nat := none
  updatedAt : Option Nat := none
  expiresAt : Nat

/-- A storage adapter: `save`, `load` and `delete` act on an explicit backend
state of type `σ` and may fail with a message (a raised error in the
JavaScript source). -/
structure StorageAdapter (σ : Type) where
  save : Task → σ → Except String σ
  load : String → σ → Except String (Option Task)
  delete : String → σ → Except String σ

/-- `true` exactly on non-raising adapter results. -/
def exceptOk {α : Type} : Except String α → Bool
  | .ok _ => true
  | .error _ => false

/-- An adapter none of whose operations ever raise. -/
def StorageAdapter.NeverFails {σ : Type} (a : StorageAdapter σ) : Prop :=
  (∀ t st, exceptOk (a.save t st) = true) ∧
  (∀ id st, exceptOk (a.load id st) = true) ∧
  (∀ id st, exceptOk (a.delete id st) = true)

/-- Observable events of one orchestrator run, in program order: each call to
the adapter's `save`/`delete`, each invocation of the engine's
`resumeExecution` (with the state and response value handed over), and each
`vm.dispose()`. -/
inductive Event where
  | save (t : Task)
  | delete (id : String)
  | engineResume (vmState responseValue : Val)
  | dispose

/-- Outcome of one `execute`/`resume` call: the returned task or the raised
error, the final storage state, and the event log. -/
structure RunResult (σ : Type) where
  result : Except String Task
  storage : σ
  events : List Event

/-- Result object of the engine's `executeCode`/`resumeExecution`:
a discriminated record with a `type` tag and the payload fields the
orchestrator copies into the task. -/
structure EngineResult where
  type : String
  result : Val := .vUndefined
  error : Val := .vUndefined
  state : Val := .vUndefined
  fetchRequest : Val := .vUndefined

/-- Behaviour of one engine lifecycle: either `initialize`/execution raises
with a message, or it returns an `EngineResult` together with the value of the
engine's `paused` slot after the run. -/
inductive EngineOutcome where
  | raises (msg : String)
  | returns (r : EngineResult) (pausedSlot : Val)

/-- JavaScript `optionalField || fallback` for string-valued request fields:
an absent or empty string falls back. -/
def jsOrString (v : Option String) (fallback : String) : String :=
  match v with
  | some s => if s = "" then fallback else s
  | none => fallback

/-- The number of `dispose` events in a log. -/
def disposeCount (evs : List Event) : Nat :=
  (evs.filter fun e => match e with | .dispose => true | _ => false).length

/-- In-memory backend state: the contents of the `Map` keyed by task id. -/
abbrev MemState := List (String × Task)

/-- `Map.prototype.set`: replace the entry under the key, else append. -/
def mapSet : MemState → String → Task → MemState
  | [], k, v => [(k, v)]
  | (k', v') :: rest, k, v =>
      if k' = k then (k, v) :: rest else (k', v') :: mapSet rest k v

/-- `Map.prototype.get`. -/
def mapGet : MemState → String → Option Task
  | [], _ => none
  | (k', v') :: rest, k => if k' = k then some v' else mapGet rest k

/-- `Map.prototype.delete`. -/
def mapDelete : MemState → String → MemState
  | [], _ => []
  | (k', v') :: rest, k =>
      if k' = k then mapDelete rest k else (k', v') :: mapDelete rest k

/-- The `InMemoryStorage` adapter: `save` upserts by `task.id`, `load`
returns the entry or nothing, `delete` removes it; none of them raise. -/
def InMemoryStorage : StorageAdapter MemState where
  save t st := .ok (mapSet st t.id t)
  load id st := .ok (mapGet st id)
  delete id st := .ok (mapDelete st id)

/-- The `request` argument of `SequentialFlow.execute`. -/
structure ExecuteRequest where
  id : Option String := none
  name : Option String := none
  code : String

/-- The `options` argument of `SequentialFlow.execute`, with the source's
defaults (`saveToStorage = true`, `ttl` = 2 hours in milliseconds). -/
structure ExecuteOptions where
  saveToStorage : Bool := true
  ttl : Nat := 2 * 60 * 60 * 1000

/-- `SequentialFlow.execute(request, options)`.  Extra parameters make the
implicit environment explicit: `eng` is the behaviour of the fresh engine
instance on `request.code`, `storage`/`st` the adapter and its state, `genId`
the identifier the source would generate from the clock and `Math.random`,
and `now` the clock reading (milliseconds).  The whole body runs inside
`try … catch (error) … finally vm.dispose()`: any raise in the try block —
engine or storage — is converted into a `status = error` task, and `dispose`
is logged on every path. -/
def SequentialFlow.execute {σ : Type} (eng : EngineOutcome) (request : ExecuteRequest)
    (storage : StorageAdapter σ) (st : σ) (options : ExecuteOptions)
    (genId : String) (now : Nat) : RunResult σ :=
  let taskId := jsOrString request.id genId
  match eng with
  | .raises msg =>
      { result := .ok { id := taskId, name := jsOrString request.name taskId,
                        code := request.code, status := "error", error := .vStr msg,
                        createdAt := some now, expiresAt := now + options.ttl },
        storage := st, events := [.dispose] }
  | .returns r pausedSlot =>
      let task : Task :=
        { id := taskId, name := jsOrString request.name taskId, code := request.code,
          status := if r.type = "pause" then "paused"
                    else if r.type = "complete" then "completed" else "error",
          result := r.result, error := r.error, vmState := r.state,
          pausedState := if r.type = "pause" then pausedSlot else .vNull,
          fetchRequest := r.fetchRequest,
          createdAt := some now, expiresAt := now + options.ttl }
      if options.saveToStorage = true ∧ task.status = "paused" then
        match storage.save task st with
        | .ok st' => { result := .ok task, storage := st', events := [.save task, .dispose] }
        | .error msg =>
            { result := .ok { id := taskId, name := jsOrString request.name taskId,
                              code := request.code, status := "error", error := .vStr msg,
                              createdAt := some now, expiresAt := now + options.ttl },
              storage := st, events := [.save task, .dispose] }
      else
        { result := .ok task, storage := st, events := [.dispose] }

/-- The `request` argument of `SequentialFlow.resume`. -/
structure ResumeRequest where
  taskId : String
  vmState : Val := .vUndefined
  pausedState : Val := .vUndefined
  originalCode : Option String := none
  fetchResponse : Val := .vUndefined

/-- Lines 101-103 of the source: the `paused` slot written into the fresh
engine before resuming — the request's `pausedState` if truthy, else the
stored task's if truthy, else left unset (`undefined`). -/
def restoredPaused (requestPaused storedPaused : Val) : Val :=
  if truthy requestPaused then requestPaused
  else if truthy storedPaused then storedPaused
  else .vUndefined

/-- The expression `fetchResponse.data || fetchResponse` from the source:
the property access raises on a nullish `fetchResponse`; otherwise the
`data` field is delivered when truthy, else the whole object. -/
def unwrapFetchResponse (fetchResponse : Val) : Except String Val :=
  match getProp fetchResponse "data" with
  | .error msg => .error msg
  | .ok d => .ok (if truthy d then d else fetchResponse)

/-- The `catch (error)` block of `resume`: build a `status = error` task,
`await storage.delete(taskId)` (whose own failure propagates), return the
task; `finally` still logs `dispose`. -/
def resumeCatch {σ : Type} (storage : StorageAdapter σ) (st : σ) (prior : List Event)
    (taskId nm code msg : String) (now : Nat) : RunResult σ :=
  let task : Task :=
    { id := taskId, name := nm, code := code, status := "error", error := .vStr msg,
      updatedAt := some now, expiresAt := now + 2 * 60 * 60 * 1000 }
  match storage.delete taskId st with
  | .ok st' => { result := .ok task, storage := st',
                 events := prior ++ [.delete taskId, .dispose] }
  | .error m => { result := .error m, storage := st,
                  events := prior ++ [.delete taskId, .dispose] }

/-- `SequentialFlow.resume(request, options)`.  `eng` gives the fresh engine
instance's behaviour as a function of the restored `paused` slot, the
supplied `vmState` and the response value handed to `resumeExecution`.  The
initial `storage.load` and the task-not-found raise happen before the
try/finally, so they propagate and dispose nothing; everything after runs
under the catch of `resumeCatch`. -/
def SequentialFlow.resume {σ : Type} (eng : Val → Val → Val → EngineOutcome)
    (request : ResumeRequest) (storage : StorageAdapter σ) (st : σ)
    (now : Nat) : RunResult σ :=
  match storage.load request.taskId st with
  | .error msg => { result := .error msg, storage := st, events := [] }
  | .ok none =>
      { result := .error ("Task " ++ request.taskId ++ " not found in storage"),
        storage := st, events := [] }
  | .ok (some storedTask) =>
      let code := jsOrString request.originalCode storedTask.code
      match unwrapFetchResponse request.fetchResponse with
      | .error msg =>
          resumeCatch storage st [] request.taskId storedTask.name code msg now
      | .ok responseValue =>
          match eng (restoredPaused request.pausedState storedTask.pausedState)
              request.vmState responseValue with
          | .raises msg =>
              resumeCatch storage st [.engineResume request.vmState responseValue]
                request.taskId storedTask.name code msg now
          | .returns r pausedSlot =>
              let task : Task :=
                { id := request.taskId, name := storedTask.name, code := code,
                  status := if r.type = "pause" then "paused"
                            else if r.type = "complete" then "completed" else "error",
                  result := r.result, error := r.error, vmState := r.state,
                  pausedState := if r.type = "pause" then pausedSlot else .vNull,
                  fetchRequest := r.fetchRequest,
                  updatedAt := some now, expiresAt := now + 2 * 60 * 60 * 1000 }
              if task.status = "paused" then
                match storage.save task st with
                | .ok st' =>
                    { result := .ok task, storage := st',
                      events := [.engineResume request.vmState responseValue,
                                 .save task, .dispose] }
                | .error m =>
                    resumeCatch storage st
                      [.engineResume request.vmState responseValue, .save task]
                      request.taskId storedTask.name code m now
              else if task.status = "completed" ∨ task.status = "error" then
                match storage.delete request.taskId st with
                | .ok st' =>
                    { result := .ok task, storage := st',
                      events := [.engineResume request.vmState responseValue,
                                 .delete request.taskId, .dispose] }
                | .error m =>
                    resumeCatch storage st
                      [.engineResume request.vmState responseValue,
                       .delete request.taskId]
                      request.taskId storedTask.name code m now
              else
                { result := .ok task, storage := st,
                  events := [.engineResume request.vmState responseValue, .dispose] }

/-- `SequentialFlow.getTask(taskId, options)`: pass-through read. -/
def SequentialFlow.getTask {σ : Type} (taskId : String) (storage : StorageAdapter σ)
    (st : σ) : Except String (Option Task) :=
  storage.load taskId st

/-- `SequentialFlow.deleteTask(taskId, options)`: pass-through delete. -/
def SequentialFlow.deleteTask {σ : Type} (taskId : String) (storage : StorageAdapter σ)
    (st : σ) : Except String σ :=
  storage.delete taskId st

theorem mapGet_mapSet_self (m : MemState) (k : String) (v : Task) :
    mapGet (mapSet m k v) k = some v := by
  induction m with
  | nil => simp [mapSet, mapGet]
  | cons hd tl ih =>
      obtain ⟨k', v'⟩ := hd
      by_cases h : k' = k <;> simp [mapSet, mapGet, h, ih]

theorem mapSet_mapSet_self (m : MemState) (k : String) (v₁ v₂ : Task) :
    mapSet (mapSet m k v₁) k v₂ = mapSet m k v₂ := by
  induction m with
  | nil => simp [mapSet]
  | cons hd tl ih =>
      obtain ⟨k', v'⟩ := hd
      by_cases h : k' = k <;> simp [mapSet, h, ih]

theorem mapGet_mapDelete_self (m : MemState) (k : String) :
    mapGet (mapDelete m k) k = none := by
  induction m with
  | nil => simp [mapDelete, mapGet]
  | cons hd tl ih =>
      obtain ⟨k', v'⟩ := hd
      by_cases h : k' = k <;> simp [mapDelete, mapGet, h, ih]

theorem mapDelete_mapDelete_self (m : MemState) (k : String) :
    mapDelete (mapDelete m k) k = mapDelete m k := by
  induction m with
  | nil => simp [mapDelete]
  | cons hd tl ih =>
      obtain ⟨k', v'⟩ := hd
      by_cases h : k' = k <;> simp [mapDelete, h, ih]

/-- A sample paused task used to instantiate hypothesised theorems. -/
def sampleTask : Task :=
  { id := "t1", name := "t1", code := "fetch(u)", status := "paused",
    vmState := .vObj [], pausedState := .vObj [], fetchRequest := .vObj [],
    createdAt := some 0, expiresAt := 7200000 }

/-- A second task under the same id, to exercise overwrite semantics. -/
def sampleTask2 : Task :=
  { id := "t1", name := "other", code := "1 + 1", status := "paused",
    vmState := .vObj [], pausedState := .vObj [], fetchRequest := .vObj [],
    createdAt := some 5, expiresAt := 7200005 }

/-- Claim C8: for every task and prior in-memory state, `load (save t) t.id`
returns exactly `t`, and a second `save` under the same id overwrites the
first record rather than appending a new one. -/
theorem claim_c8 (st : MemState) (t t₂ : Task) :
    (InMemoryStorage.save t st).bind (fun st' => InMemoryStorage.load t.id st') =
      .ok (some t) ∧
    (t.id = t₂.id →
      (InMemoryStorage.save t st).bind (InMemoryStorage.save t₂) =
        InMemoryStorage.save t₂ st) := by
  constructor
  · simp [InMemoryStorage, Except.bind, mapGet_mapSet_self]
  · intro h
    simp [InMemoryStorage, Except.bind]
    rw [h, mapSet_mapSet_self]

/-- Witness for C8 at a concrete state and pair of same-id tasks. -/
theorem claim_c8_witness :
    (InMemoryStorage.save sampleTask []).bind
        (fun st' => InMemoryStorage.load sampleTask.id st') = .ok (some sampleTask) ∧
    (InMemoryStorage.save sampleTask []).bind (InMemoryStorage.save sampleTask2) =
      InMemoryStorage.save sampleTask2 [] :=
  ⟨(claim_c8 [] sampleTask sampleTask2).1, (claim_c8 [] sampleTask sampleTask2).2 rfl⟩

/-- Claim C9: `deleteTask` on the in-memory adapter never raises, for any id
(present or absent); after it the id is absent, and deleting twice equals
deleting once. -/
theorem claim_c9 (st : MemState) (taskId : String) :
    SequentialFlow.deleteTask taskId InMemoryStorage st = .ok (mapDelete st taskId) ∧
    mapGet (mapDelete st taskId) taskId = none ∧
    mapDelete (mapDelete st taskId) taskId = mapDelete st taskId :=
  ⟨rfl, mapGet_mapDelete_self st taskId, mapDelete_mapDelete_self st taskId⟩

/-- Claim C2: when the engine's `initialize` or `executeCode` raises,
`execute` does not raise: it returns a `status = error` task carrying the
raised message, leaves the storage state unchanged, and performs no adapter
call (the event log is just the `dispose`). -/
theorem claim_c2 {σ : Type} (msg : String) (request : ExecuteRequest)
    (storage : StorageAdapter σ) (st : σ) (options : ExecuteOptions)
    (genId : String) (now : Nat) :
    (SequentialFlow.execute (.raises msg) request storage st options genId now).result =
      .ok { id := jsOrString request.id genId,
            name := jsOrString request.name (jsOrString request.id genId),
            code := request.code, status := "error", error := .vStr msg,
            createdAt := some now, expiresAt := now + options.ttl } ∧
    (SequentialFlow.execute (.raises msg) request storage st options genId now).storage = st ∧
    (SequentialFlow.execute (.raises msg) request storage st options genId now).events =
      [.dispose] :=
  ⟨rfl, rfl, rfl⟩

/-- An adapter over a unit state whose operations always succeed and store
nothing, used to instantiate hypothesised theorems. -/
def trivialAdapter : StorageAdapter Unit where
  save _ _ := .ok ()
  load _ _ := .ok none
  delete _ _ := .ok ()

/-- Claim C6: with `ttl > 0` every task returned by `execute` has
`createdAt = now` and `expiresAt = now + ttl`, strictly later; every task
returned by `resume` carries no `createdAt`, has `updatedAt = now` and
`expiresAt` computed from the resume time plus the fixed 2-hour default. -/
theorem claim_c6 :
    (∀ (σ : Type) (eng : EngineOutcome) (request : ExecuteRequest)
        (storage : StorageAdapter σ) (st : σ) (options : ExecuteOptions)
        (genId : String) (now : Nat) (t : Task),
      0 < options.ttl →
      (SequentialFlow.execute eng request storage st options genId now).result = .ok t →
      t.createdAt = some now ∧ t.expiresAt = now + options.ttl ∧ now < t.expiresAt) ∧
    (∀ (σ : Type) (eng : Val → Val → Val → EngineOutcome) (request : ResumeRequest)
        (storage : StorageAdapter σ) (st : σ) (now : Nat) (t : Task),
      (SequentialFlow.resume eng request storage st now).result = .ok t →
      t.createdAt = none ∧ t.updatedAt = some now ∧
        t.expiresAt = now + 2 * 60 * 60 * 1000) := by
  constructor
  · intro σ eng request storage st options genId now t httl h
    cases eng with
    | raises msg =>
        simp only [SequentialFlow.execute] at h
        simp at h
        subst h
        exact ⟨rfl, rfl, by simpa using httl⟩
    | returns r slot =>
        simp only [SequentialFlow.execute] at h
        repeat' split at h
        all_goals simp at h
        all_goals subst h
        all_goals exact ⟨rfl, rfl, by show now < now + options.ttl; omega⟩
  · intro σ eng request storage st now t h
    simp only [SequentialFlow.resume, resumeCatch] at h
    repeat' split at h
    all_goals simp at h
    all_goals subst h
    all_goals exact ⟨rfl, rfl, rfl⟩

/-- The error task `execute` returns in the concrete witness run for C6. -/
def c6Task : Task :=
  { id := "g", name := "g", code := "x", status := "error", error := .vStr "boom",
    createdAt := some 0, expiresAt := 100 }

/-- The completed task `resume` returns in the concrete witness run for C6. -/
def c6rTask : Task :=
  { id := "t1", name := "t1", code := "fetch(u)", status := "completed",
    result := .vNum 7, vmState := .vUndefined, pausedState := .vNull,
    updatedAt := some 9, expiresAt := 9 + 7200000 }

/-- Witness for C6 at concrete `execute` and `resume` runs. -/
theorem claim_c6_witness :
    (c6Task.createdAt = some 0 ∧ c6Task.expiresAt = 0 + 100 ∧ 0 < c6Task.expiresAt) ∧
    (c6rTask.createdAt = none ∧ c6rTask.updatedAt = some 9 ∧
      c6rTask.expiresAt = 9 + 2 * 60 * 60 * 1000) :=
  ⟨claim_c6.1 Unit (.raises "boom") { code := "x" } trivialAdapter ()
      { saveToStorage := true, ttl := 100 } "g" 0 c6Task (by decide) rfl,
   claim_c6.2 MemState
      (fun _ _ _ => .returns { type := "complete", result := .vNum 7 } .vUndefined)
      { taskId := "t1", vmState := .vObj [], fetchResponse := .vObj [("data", .vNum 1)] }
      InMemoryStorage [("t1", sampleTask)] 9 c6rTask rfl⟩

/-- Claim C7: `execute` logs exactly one `dispose`, on every exit path; so
does every `resume` call whose initial `load` finds the task (past the
task-not-found check). -/
theorem claim_c7 :
    (∀ (σ : Type) (eng : EngineOutcome) (request : ExecuteRequest)
        (storage : StorageAdapter σ) (st : σ) (options : ExecuteOptions)
        (genId : String) (now : Nat),
      disposeCount
        (SequentialFlow.execute eng request storage st options genId now).events = 1) ∧
    (∀ (σ : Type) (eng : Val → Val → Val → EngineOutcome) (request : ResumeRequest)
        (storage : StorageAdapter σ) (st : σ) (now : Nat) (storedTask : Task),
      storage.load request.taskId st = .ok (some storedTask) →
      disposeCount (SequentialFlow.resume eng request storage st now).events = 1) := by
  constructor
  · intro σ eng request storage st options genId now
    cases eng with
    | raises msg => rfl
    | returns r slot =>
        simp only [SequentialFlow.execute]
        repeat' split
        all_goals rfl
  · intro σ eng request storage st now storedTask hload
    simp only [SequentialFlow.resume, resumeCatch, hload]
    repeat' split
    all_goals rfl

/-- Witness for C7 on a concrete resume run over a stored task. -/
theorem claim_c7_witness :
    disposeCount
      (SequentialFlow.resume (fun _ _ _ => .raises "x")
        { taskId := "t1", vmState := .vObj [], fetchResponse := .vObj [] }
        InMemoryStorage [("t1", sampleTask)] 3).events = 1 :=
  claim_c7.2 MemState (fun _ _ _ => .raises "x")
    { taskId := "t1", vmState := .vObj [], fetchResponse := .vObj [] }
    InMemoryStorage [("t1", sampleTask)] 3 sampleTask rfl

/-- Claim C1: only paused snapshots are ever handed to `storage.save`.
`execute` saves exactly when `saveToStorage` holds and the built task is
paused; `resume` saves its new snapshot when paused and deletes the stored
record when the outcome is completed or error. -/
theorem claim_c1 :
    (∀ (σ : Type) (eng : EngineOutcome) (request : ExecuteRequest)
        (storage : StorageAdapter σ) (st : σ) (options : ExecuteOptions)
        (genId : String) (now : Nat) (t : Task),
      Event.save t ∈ (SequentialFlow.execute eng request storage st options genId now).events →
      t.status = "paused" ∧ options.saveToStorage = true) ∧
    (∀ (σ : Type) (eng : EngineOutcome) (request : ExecuteRequest)
        (storage : StorageAdapter σ) (st : σ) (options : ExecuteOptions)
        (genId : String) (now : Nat) (t : Task),
      options.saveToStorage = true →
      (SequentialFlow.execute eng request storage st options genId now).result = .ok t →
      t.status = "paused" →
      Event.save t ∈ (SequentialFlow.execute eng request storage st options genId now).events) ∧
    (∀ (σ : Type) (eng : Val → Val → Val → EngineOutcome) (request : ResumeRequest)
        (storage : StorageAdapter σ) (st : σ) (now : Nat) (t : Task),
      Event.save t ∈ (SequentialFlow.resume eng request storage st now).events →
      t.status = "paused") ∧
    (∀ (σ : Type) (eng : Val → Val → Val → EngineOutcome) (request : ResumeRequest)
        (storage : StorageAdapter σ) (st : σ) (now : Nat) (t : Task),
      (SequentialFlow.resume eng request storage st now).result = .ok t →
      t.status = "paused" →
      Event.save t ∈ (SequentialFlow.resume eng request storage st now).events) ∧
    (∀ (σ : Type) (eng : Val → Val → Val → EngineOutcome) (request : ResumeRequest)
        (storage : StorageAdapter σ) (st : σ) (now : Nat) (t : Task),
      (SequentialFlow.resume eng request storage st now).result = .ok t →
      t.status = "completed" ∨ t.status = "error" →
      Event.delete request.taskId ∈ (SequentialFlow.resume eng request storage st now).events) := by
  refine ⟨?_, ?_, ?_, ?_, ?_⟩
  · intro σ eng request storage st options genId now t h
    cases eng with
    | raises msg => simp [SequentialFlow.execute] at h
    | returns r slot =>
        simp only [SequentialFlow.execute] at h
        repeat' split at h
        all_goals simp_all
  · intro σ eng request storage st options genId now t hsave h hp
    cases eng with
    | raises msg =>
        simp [SequentialFlow.execute] at h
        subst h
        simp at hp
    | returns r slot =>
        simp only [SequentialFlow.execute] at h ⊢
        repeat' split at h
        all_goals simp at h
        all_goals subst h
        all_goals simp_all
  · intro σ eng request storage st now t h
    simp only [SequentialFlow.resume, resumeCatch] at h
    repeat' split at h
    all_goals simp_all
  · intro σ eng request storage st now t h hp
    simp only [SequentialFlow.resume, resumeCatch] at h ⊢
    repeat' split at h
    all_goals simp at h
    all_goals subst h
    all_goals simp_all
  · intro σ eng request storage st now t h hp
    simp only [SequentialFlow.resume, resumeCatch] at h ⊢
    repeat' split at h
    all_goals simp at h
    all_goals subst h
    all_goals simp_all

/-- The paused task built by the concrete `execute` run in C1's witness. -/
def c1Task : Task :=
  { id := "g", name := "g", code := "c", status := "paused",
    vmState := .vObj [], pausedState := .vObj [], fetchRequest := .vObj [],
    createdAt := some 0, expiresAt := 7200000 }

/-- The paused snapshot built by the concrete `resume` run in C1's witness. -/
def c1rTask : Task :=
  { id := "t1", name := "t1", code := "fetch(u)", status := "paused",
    vmState := .vObj [], pausedState := .vObj [], fetchRequest := .vObj [],
    updatedAt := some 3, expiresAt := 3 + 7200000 }

/-- The completed task built by the concrete `resume` run in C1's witness. -/
def c1dTask : Task :=
  { id := "t1", name := "t1", code := "fetch(u)", status := "completed",
    result := .vNum 7, pausedState := .vNull,
    updatedAt := some 3, expiresAt := 3 + 7200000 }

/-- A pause-typed engine result with non-null state and fetch request. -/
def pauseER : EngineResult :=
  { type := "pause", state := .vObj [], fetchRequest := .vObj [] }

/-- A pausing engine outcome with non-null state, fetch request and slot. -/
def engPauseO : EngineOutcome := .returns pauseER (.vObj [])

/-- The pausing engine, as resume-behaviour. -/
def engPauseF : Val → Val → Val → EngineOutcome := fun _ _ _ => engPauseO

/-- A complete-typed engine result carrying a final value. -/
def completeER : EngineResult := { type := "complete", result := .vNum 7 }

/-- A completing engine, as resume-behaviour. -/
def engCompleteF : Val → Val → Val → EngineOutcome :=
  fun _ _ _ => .returns completeER .vUndefined

/-- The concrete resume request used by the C1 witness. -/
def c1req : ResumeRequest :=
  { taskId := "t1", vmState := .vObj [], fetchResponse := .vObj [("data", .vNum 1)] }

/-- Witness for C1 at concrete pausing and completing runs. -/
theorem claim_c1_witness :
    (c1Task.status = "paused" ∧ ({} : ExecuteOptions).saveToStorage = true) ∧
    Event.save c1Task ∈
      (SequentialFlow.execute engPauseO { code := "c" } InMemoryStorage [] {} "g" 0).events ∧
    c1rTask.status = "paused" ∧
    Event.save c1rTask ∈
      (SequentialFlow.resume engPauseF c1req InMemoryStorage [("t1", sampleTask)] 3).events ∧
    Event.delete "t1" ∈
      (SequentialFlow.resume engCompleteF c1req InMemoryStorage [("t1", sampleTask)] 3).events := by
  have hm := claim_c1.2.1 MemState engPauseO { code := "c" } InMemoryStorage [] {} "g" 0
    c1Task rfl rfl rfl
  have hrm := claim_c1.2.2.2.1 MemState engPauseF c1req InMemoryStorage
    [("t1", sampleTask)] 3 c1rTask rfl rfl
  have hd := claim_c1.2.2.2.2 MemState engCompleteF c1req InMemoryStorage
    [("t1", sampleTask)] 3 c1dTask rfl (Or.inl rfl)
  exact ⟨claim_c1.1 _ _ _ _ _ _ _ _ _ hm, hm,
    claim_c1.2.2.1 _ _ _ _ _ _ _ hrm, hrm, hd⟩

theorem exceptOk_ne_error {α : Type} (e : Except String α) (m : String)
    (he : e = .error m) (hok : exceptOk e = true) : False := by
  subst he
  simp [exceptOk] at hok

theorem resumeCatch_ok {σ : Type} (storage : StorageAdapter σ)
    (hd : ∀ id st, exceptOk (storage.delete id st) = true)
    (st : σ) (prior : List Event) (taskId nm code msg : String) (now : Nat) :
    exceptOk (resumeCatch storage st prior taskId nm code msg now).result = true := by
  simp only [resumeCatch]
  split
  · rfl
  · exfalso
    rename_i heq
    exact exceptOk_ne_error _ _ heq (hd _ _)

theorem resume_ok_of_load_some {σ : Type} (storage : StorageAdapter σ)
    (hd : ∀ id st, exceptOk (storage.delete id st) = true)
    (eng : Val → Val → Val → EngineOutcome) (request : ResumeRequest) (st : σ)
    (now : Nat) (stored : Task)
    (hload : storage.load request.taskId st = .ok (some stored)) :
    exceptOk (SequentialFlow.resume eng request storage st now).result = true := by
  simp only [SequentialFlow.resume, hload]
  repeat' split
  all_goals try rfl
  all_goals exact resumeCatch_ok storage hd _ _ _ _ _ _ _

theorem execute_never_raises {σ : Type} (eng : EngineOutcome) (request : ExecuteRequest)
    (storage : StorageAdapter σ) (st : σ) (options : ExecuteOptions)
    (genId : String) (now : Nat) :
    exceptOk (SequentialFlow.execute eng request storage st options genId now).result
      = true := by
  cases eng with
  | raises msg => rfl
  | returns r slot =>
      simp only [SequentialFlow.execute]
      repeat' split
      all_goals rfl

theorem resume_not_found {σ : Type} (eng : Val → Val → Val → EngineOutcome)
    (request : ResumeRequest) (storage : StorageAdapter σ) (st : σ) (now : Nat)
    (h : storage.load request.taskId st = .ok none) :
    (SequentialFlow.resume eng request storage st now).result =
      .error ("Task " ++ request.taskId ++ " not found in storage") := by
  simp only [SequentialFlow.resume, h]

theorem resume_inmem_terminal (eng : Val → Val → Val → EngineOutcome)
    (request : ResumeRequest) (st : MemState) (now : Nat) (t : Task)
    (h : (SequentialFlow.resume eng request InMemoryStorage st now).result = .ok t)
    (ht : t.status = "completed" ∨ t.status = "error") :
    (SequentialFlow.resume eng request InMemoryStorage st now).storage =
      mapDelete st request.taskId := by
  simp only [SequentialFlow.resume, resumeCatch, InMemoryStorage] at h ⊢
  repeat' split at h
  all_goals try simp at h
  all_goals try subst h
  all_goals simp_all

theorem inMemory_neverFails : InMemoryStorage.NeverFails :=
  ⟨fun _ _ => rfl, fun _ _ => rfl, fun _ _ => rfl⟩

/-- Claim C3: when the adapter's `load` finds nothing, `resume` raises the
task-not-found failure; for a never-failing adapter this is the only way
the orchestrator raises (`execute`, `getTask`, `deleteTask` never do, and a
raising `resume` implies the load found nothing); and after a terminal
(`completed`/`error`) resume against the in-memory adapter, the record is
gone, so any further resume of that id takes the raising path. -/
theorem claim_c3 :
    (∀ (σ : Type) (eng : Val → Val → Val → EngineOutcome) (request : ResumeRequest)
        (storage : StorageAdapter σ) (st : σ) (now : Nat),
      storage.load request.taskId st = .ok none →
      (SequentialFlow.resume eng request storage st now).result =
        .error ("Task " ++ request.taskId ++ " not found in storage")) ∧
    (∀ (σ : Type) (storage : StorageAdapter σ), storage.NeverFails →
      (∀ (eng : Val → Val → Val → EngineOutcome) (request : ResumeRequest) (st : σ)
          (now : Nat) (m : String),
        (SequentialFlow.resume eng request storage st now).result = .error m →
        storage.load request.taskId st = .ok none ∧
          m = "Task " ++ request.taskId ++ " not found in storage") ∧
      (∀ (eng : EngineOutcome) (request : ExecuteRequest) (st : σ)
          (options : ExecuteOptions) (genId : String) (now : Nat),
        exceptOk (SequentialFlow.execute eng request storage st options genId now).result
          = true) ∧
      (∀ (taskId : String) (st : σ),
        exceptOk (SequentialFlow.getTask taskId storage st) = true ∧
        exceptOk (SequentialFlow.deleteTask taskId storage st) = true)) ∧
    (∀ (eng eng' : Val → Val → Val → EngineOutcome) (request request' : ResumeRequest)
        (st : MemState) (now now' : Nat) (t : Task),
      (SequentialFlow.resume eng request InMemoryStorage st now).result = .ok t →
      t.status = "completed" ∨ t.status = "error" →
      request'.taskId = request.taskId →
      (SequentialFlow.resume eng' request' InMemoryStorage
          (SequentialFlow.resume eng request InMemoryStorage st now).storage now').result =
        .error ("Task " ++ request'.taskId ++ " not found in storage")) := by
  refine ⟨?_, ?_, ?_⟩
  · intro σ eng request storage st now h
    exact resume_not_found eng request storage st now h
  · intro σ storage hnf
    obtain ⟨hs, hl, hd⟩ := hnf
    refine ⟨?_, ?_, ?_⟩
    · intro eng request st now m h
      cases hld : storage.load request.taskId st with
      | error msg =>
          exfalso
          exact exceptOk_ne_error _ _ hld (hl _ _)
      | ok o =>
          cases o with
          | none =>
              have hr := resume_not_found eng request storage st now hld
              rw [hr] at h
              simp at h
              exact ⟨rfl, h.symm⟩
          | some stored =>
              exfalso
              exact exceptOk_ne_error _ _ h
                (resume_ok_of_load_some storage hd eng request st now stored hld)
    · intro eng request st options genId now
      exact execute_never_raises eng request storage st options genId now
    · intro taskId st
      exact ⟨hl taskId st, hd taskId st⟩
  · intro eng eng2 request request2 st now now2 t h ht hid
    have hst := resume_inmem_terminal eng request st now t h ht
    refine resume_not_found eng2 request2 InMemoryStorage _ now2 ?_
    show Except.ok (mapGet _ request2.taskId) = Except.ok none
    rw [hst, hid, mapGet_mapDelete_self]

/-- A resume request for an id absent from storage. -/
def c3req : ResumeRequest :=
  { taskId := "missing", vmState := .vObj [], fetchResponse := .vObj [] }

/-- Witness for C3 at concrete runs: a resume against empty storage raises
the not-found message, the in-memory adapter never fails, and resuming after
a terminal resume raises again. -/
theorem claim_c3_witness :
    (SequentialFlow.resume engPauseF c3req InMemoryStorage [] 0).result =
      .error ("Task " ++ c3req.taskId ++ " not found in storage") ∧
    (InMemoryStorage.load c3req.taskId [] = .ok none ∧
      "Task missing not found in storage" =
        "Task " ++ c3req.taskId ++ " not found in storage") ∧
    exceptOk
      (SequentialFlow.execute engPauseO { code := "c" } InMemoryStorage []
        {} "g" 0).result = true ∧
    (exceptOk (SequentialFlow.getTask "x" InMemoryStorage []) = true ∧
      exceptOk (SequentialFlow.deleteTask "x" InMemoryStorage []) = true) ∧
    (SequentialFlow.resume engPauseF c1req InMemoryStorage
        (SequentialFlow.resume engCompleteF c1req InMemoryStorage
          [("t1", sampleTask)] 3).storage 4).result =
      .error ("Task " ++ c1req.taskId ++ " not found in storage") :=
  ⟨claim_c3.1 MemState engPauseF c3req InMemoryStorage [] 0 rfl,
   (claim_c3.2.1 MemState InMemoryStorage inMemory_neverFails).1 engPauseF c3req [] 0
     "Task missing not found in storage" rfl,
   (claim_c3.2.1 MemState InMemoryStorage inMemory_neverFails).2.1 engPauseO
     { code := "c" } [] {} "g" 0,
   (claim_c3.2.1 MemState InMemoryStorage inMemory_neverFails).2.2 "x" [],
   claim_c3.2.2 engCompleteF engPauseF c1req c1req [("t1", sampleTask)] 3 4 c1dTask
     rfl (Or.inl rfl) rfl⟩

/-- An adapter whose `save` always raises but whose load/delete work over
the in-memory state. -/
def saveFailsAdapter : StorageAdapter MemState where
  save _ _ := .error "disk full"
  load id st := .ok (mapGet st id)
  delete id st := .ok (mapDelete st id)

/-- An adapter whose `load` always raises. -/
def loadFailsAdapter : StorageAdapter Unit where
  save _ _ := .ok ()
  load _ _ := .error "load boom"
  delete _ _ := .ok ()

/-- An adapter whose `delete` always raises and whose `load` finds a task. -/
def deleteFailsAdapter : StorageAdapter Unit where
  save _ _ := .ok ()
  load _ _ := .ok (some sampleTask)
  delete _ _ := .error "del boom"

/-- An engine that always raises. -/
def engRaisesF : Val → Val → Val → EngineOutcome := fun _ _ _ => .raises "x"

/-- Counterexample to C4 as stated: a failing `save` inside `execute` does not
propagate to the caller — execute still returns `.ok`, namely a
`status = error` task carrying the adapter's message. -/
theorem claim_c4_counterexample :
    exceptOk (SequentialFlow.execute engPauseO { code := "c" } saveFailsAdapter []
      {} "g" 0).result = true ∧
    (SequentialFlow.execute engPauseO { code := "c" } saveFailsAdapter []
      {} "g" 0).result =
      .ok { id := "g", name := "g", code := "c", status := "error",
            error := .vStr "disk full", createdAt := some 0, expiresAt := 7200000 } :=
  ⟨rfl, rfl⟩

/-- Claim C4 as amended: adapter failures propagate as-is from resume's
initial `load`, from the `delete` in resume's catch path, and from the
`getTask`/`deleteTask` pass-throughs; but a failing `save` in `execute`, and
failing `save`/`delete` calls inside resume's try region, are caught by the
surrounding catch, which builds a `status = error` task carrying the
adapter's message and then performs its own delete: after a save failure
that delete succeeds and the error task is returned, while after an in-try
delete failure the catch re-attempts the same delete, so the failure
surfaces to the caller through that second call (two delete events, then
the raise propagates). -/
theorem claim_c4 :
    (∀ (σ : Type) (storage : StorageAdapter σ) (taskId : String) (st : σ),
      SequentialFlow.getTask taskId storage st = storage.load taskId st ∧
      SequentialFlow.deleteTask taskId storage st = storage.delete taskId st) ∧
    (∀ (σ : Type) (eng : Val → Val → Val → EngineOutcome) (request : ResumeRequest)
        (storage : StorageAdapter σ) (st : σ) (now : Nat) (m : String),
      storage.load request.taskId st = .error m →
      (SequentialFlow.resume eng request storage st now).result = .error m ∧
      (SequentialFlow.resume eng request storage st now).storage = st) ∧
    (∀ (σ : Type) (eng : Val → Val → Val → EngineOutcome) (request : ResumeRequest)
        (storage : StorageAdapter σ) (st : σ) (now : Nat) (stored : Task)
        (msg m : String),
      storage.load request.taskId st = .ok (some stored) →
      (∀ p v rv, eng p v rv = EngineOutcome.raises msg) →
      storage.delete request.taskId st = .error m →
      (SequentialFlow.resume eng request storage st now).result = .error m) ∧
    (∀ (σ : Type) (r : EngineResult) (slot : Val) (request : ExecuteRequest)
        (storage : StorageAdapter σ) (st : σ) (options : ExecuteOptions)
        (genId : String) (now : Nat) (msg : String),
      r.type = "pause" →
      options.saveToStorage = true →
      (∀ t st, storage.save t st = .error msg) →
      (SequentialFlow.execute (.returns r slot) request storage st options
          genId now).result =
        .ok { id := jsOrString request.id genId,
              name := jsOrString request.name (jsOrString request.id genId),
              code := request.code, status := "error", error := .vStr msg,
              createdAt := some now, expiresAt := now + options.ttl }) ∧
    (∀ (σ : Type) (eng : Val → Val → Val → EngineOutcome) (r : EngineResult)
        (slot : Val) (request : ResumeRequest) (storage : StorageAdapter σ)
        (st : σ) (now : Nat) (stored : Task) (rv : Val) (msg : String),
      storage.load request.taskId st = .ok (some stored) →
      unwrapFetchResponse request.fetchResponse = .ok rv →
      (∀ p v rv, eng p v rv = EngineOutcome.returns r slot) →
      r.type = "pause" →
      (∀ t st, storage.save t st = .error msg) →
      (∀ id st, exceptOk (storage.delete id st) = true) →
      (SequentialFlow.resume eng request storage st now).result =
        .ok { id := request.taskId, name := stored.name,
              code := jsOrString request.originalCode stored.code,
              status := "error", error := .vStr msg,
              updatedAt := some now, expiresAt := now + 2 * 60 * 60 * 1000 } ∧
      Event.delete request.taskId ∈
        (SequentialFlow.resume eng request storage st now).events) ∧
    (∀ (σ : Type) (eng : Val → Val → Val → EngineOutcome) (r : EngineResult)
        (slot : Val) (request : ResumeRequest) (storage : StorageAdapter σ)
        (st : σ) (now : Nat) (stored : Task) (rv : Val) (m : String),
      storage.load request.taskId st = .ok (some stored) →
      unwrapFetchResponse request.fetchResponse = .ok rv →
      (∀ p v rv, eng p v rv = EngineOutcome.returns r slot) →
      r.type = "complete" →
      storage.delete request.taskId st = .error m →
      (SequentialFlow.resume eng request storage st now).result = .error m ∧
      (SequentialFlow.resume eng request storage st now).events =
        [.engineResume request.vmState rv, .delete request.taskId,
         .delete request.taskId, .dispose]) := by
  refine ⟨fun σ storage taskId st => ⟨rfl, rfl⟩, ?_, ?_, ?_, ?_, ?_⟩
  · intro σ eng request storage st now m h
    constructor
    · simp only [SequentialFlow.resume, h]
    · simp only [SequentialFlow.resume, h]
  · intro σ eng request storage st now stored msg m hload heng hdel
    simp only [SequentialFlow.resume, hload]
    cases hu : unwrapFetchResponse request.fetchResponse with
    | error m2 => simp only [resumeCatch, hdel]
    | ok rv2 => simp only [heng, resumeCatch, hdel]
  · intro σ r slot request storage st options genId now msg hr hopt hsave
    simp [SequentialFlow.execute, hr, hopt, hsave]
  · intro σ eng r slot request storage st now stored rv msg hload hu heng hr hsave hdel
    simp only [SequentialFlow.resume, hload, hu, heng, hr, hsave]
    simp only [resumeCatch]
    cases hdl : storage.delete request.taskId st with
    | error m2 =>
        exfalso
        exact exceptOk_ne_error _ _ hdl (hdel _ _)
    | ok st2 => simp [hdl]
  · intro σ eng r slot request storage st now stored rv m hload hu heng hr hdel
    constructor
    · simp only [SequentialFlow.resume, hload, hu, heng]
      simp [hr, resumeCatch, hdel]
    · simp only [SequentialFlow.resume, hload, hu, heng]
      simp [hr, resumeCatch, hdel]

/-- Witness for the amended C4 at concrete adapters that fail in each spot. -/
theorem claim_c4_witness :
    (SequentialFlow.getTask "x" InMemoryStorage [] = InMemoryStorage.load "x" [] ∧
      SequentialFlow.deleteTask "x" InMemoryStorage [] = InMemoryStorage.delete "x" []) ∧
    ((SequentialFlow.resume engPauseF c3req loadFailsAdapter () 0).result =
        .error "load boom" ∧
      (SequentialFlow.resume engPauseF c3req loadFailsAdapter () 0).storage = ()) ∧
    (SequentialFlow.resume engRaisesF c1req deleteFailsAdapter () 0).result =
      .error "del boom" ∧
    (SequentialFlow.execute (.returns pauseER (.vObj [])) { code := "c" }
        saveFailsAdapter [] {} "g" 0).result =
      .ok { id := jsOrString ({ code := "c" } : ExecuteRequest).id "g",
            name := jsOrString ({ code := "c" } : ExecuteRequest).name
              (jsOrString ({ code := "c" } : ExecuteRequest).id "g"),
            code := "c", status := "error", error := .vStr "disk full",
            createdAt := some 0,
            expiresAt := 0 + ({} : ExecuteOptions).ttl } ∧
    ((SequentialFlow.resume engPauseF c1req saveFailsAdapter
        [("t1", sampleTask)] 3).result =
      .ok { id := c1req.taskId, name := sampleTask.name,
            code := jsOrString c1req.originalCode sampleTask.code,
            status := "error", error := .vStr "disk full",
            updatedAt := some 3, expiresAt := 3 + 2 * 60 * 60 * 1000 } ∧
      Event.delete c1req.taskId ∈
        (SequentialFlow.resume engPauseF c1req saveFailsAdapter
          [("t1", sampleTask)] 3).events) ∧
    ((SequentialFlow.resume engCompleteF c1req deleteFailsAdapter () 0).result =
        .error "del boom" ∧
      (SequentialFlow.resume engCompleteF c1req deleteFailsAdapter () 0).events =
        [.engineResume (.vObj []) (.vNum 1), .delete c1req.taskId,
         .delete c1req.taskId, .dispose]) :=
  ⟨claim_c4.1 MemState InMemoryStorage "x" [],
   claim_c4.2.1 Unit engPauseF c3req loadFailsAdapter () 0 "load boom" rfl,
   claim_c4.2.2.1 Unit engRaisesF c1req deleteFailsAdapter () 0 sampleTask "x"
     "del boom" rfl (fun _ _ _ => rfl) rfl,
   claim_c4.2.2.2.1 MemState pauseER (.vObj []) { code := "c" } saveFailsAdapter []
     {} "g" 0 "disk full" rfl rfl (fun _ _ => rfl),
   claim_c4.2.2.2.2.1 MemState engPauseF pauseER (.vObj []) c1req saveFailsAdapter
     [("t1", sampleTask)] 3 sampleTask (.vNum 1) "disk full" rfl rfl
     (fun _ _ _ => rfl) rfl (fun _ _ => rfl) (fun _ _ => rfl),
   claim_c4.2.2.2.2.2 Unit engCompleteF completeER .vUndefined c1req
     deleteFailsAdapter () 0 sampleTask (.vNum 1) "del boom" rfl rfl
     (fun _ _ _ => rfl) rfl rfl⟩

/-- Well-formedness of one engine outcome, per the engine contract: pause
results carry non-null state, fetch request and paused slot; complete results
carry a present result and no error/state/fetch request; other results carry
a non-empty error message and nothing else; raised failures have non-empty
messages. -/
def GoodOutcome : EngineOutcome → Prop
  | .raises msg => msg ≠ ""
  | .returns r pausedSlot =>
      (r.type = "pause" →
        isNullish r.state = false ∧ isNullish r.fetchRequest = false ∧
          isNullish pausedSlot = false) ∧
      (r.type = "complete" →
        r.result ≠ .vUndefined ∧ isNullish r.error = true ∧
          isNullish r.state = true ∧ isNullish r.fetchRequest = true) ∧
      (r.type ≠ "pause" → r.type ≠ "complete" →
        (∃ s, r.error = .vStr s ∧ s ≠ "") ∧ isNullish r.result = true ∧
          isNullish r.state = true ∧ isNullish r.fetchRequest = true)

/-- The status-conditioned field invariants the spec states for returned
tasks. -/
def TaskInvariant (t : Task) : Prop :=
  (t.status = "paused" →
    isNullish t.vmState = false ∧ isNullish t.pausedState = false ∧
      isNullish t.fetchRequest = false) ∧
  (t.status = "completed" →
    t.result ≠ .vUndefined ∧ isNullish t.error = true ∧ isNullish t.vmState = true ∧
      isNullish t.pausedState = true ∧ isNullish t.fetchRequest = true) ∧
  (t.status = "error" →
    (∃ s, t.error = .vStr s ∧ s ≠ "") ∧ isNullish t.result = true ∧
      isNullish t.vmState = true ∧ isNullish t.pausedState = true ∧
      isNullish t.fetchRequest = true)

theorem taskInvariant_paused (t : Task) (hstat : t.status = "paused")
    (h1 : isNullish t.vmState = false) (h2 : isNullish t.pausedState = false)
    (h3 : isNullish t.fetchRequest = false) : TaskInvariant t := by
  refine ⟨fun _ => ⟨h1, h2, h3⟩, fun hc => ?_, fun he => ?_⟩
  · rw [hstat] at hc
    simp at hc
  · rw [hstat] at he
    simp at he

theorem taskInvariant_completed (t : Task) (hstat : t.status = "completed")
    (h1 : t.result ≠ .vUndefined) (h2 : isNullish t.error = true)
    (h3 : isNullish t.vmState = true) (h4 : isNullish t.pausedState = true)
    (h5 : isNullish t.fetchRequest = true) : TaskInvariant t := by
  refine ⟨fun hp => ?_, fun _ => ⟨h1, h2, h3, h4, h5⟩, fun he => ?_⟩
  · rw [hstat] at hp
    simp at hp
  · rw [hstat] at he
    simp at he

theorem taskInvariant_error (t : Task) (hstat : t.status = "error")
    (msg : String) (hmsg : msg ≠ "") (herr : t.error = .vStr msg)
    (h1 : isNullish t.result = true) (h2 : isNullish t.vmState = true)
    (h3 : isNullish t.pausedState = true) (h4 : isNullish t.fetchRequest = true) :
    TaskInvariant t := by
  refine ⟨fun hp => ?_, fun hc => ?_, fun _ => ⟨⟨msg, herr, hmsg⟩, h1, h2, h3, h4⟩⟩
  · rw [hstat] at hp
    simp at hp
  · rw [hstat] at hc
    simp at hc

theorem unwrap_error_ne_empty (fr : Val) (m : String)
    (h : unwrapFetchResponse fr = .error m) : m ≠ "" := by
  cases fr <;> simp [unwrapFetchResponse, getProp] at h <;> (subst h; decide)

/-- Failing saves carry a non-empty message.  A save is the only adapter
operation whose failure message can end up in a returned task's `error`
field: a failing load propagates directly, and a failing in-try delete
surfaces through the catch's re-delete as a raise (claim C4), never as a
returned task. -/
def StorageAdapter.SaveMessagesNonempty {σ : Type} (a : StorageAdapter σ) : Prop :=
  ∀ t st m, a.save t st = .error m → m ≠ ""

/-- Claim C5 as amended: provided the engine produces well-formed outcomes
(`GoodOutcome`) and any failing storage save carries a non-empty message,
every task returned by `execute` or `resume` satisfies the
status-conditioned field invariants. -/
theorem claim_c5 :
    (∀ (σ : Type) (storage : StorageAdapter σ), storage.SaveMessagesNonempty →
      ∀ (eng : EngineOutcome), GoodOutcome eng →
      ∀ (request : ExecuteRequest) (st : σ) (options : ExecuteOptions)
          (genId : String) (now : Nat) (t : Task),
        (SequentialFlow.execute eng request storage st options genId now).result = .ok t →
        TaskInvariant t) ∧
    (∀ (σ : Type) (storage : StorageAdapter σ), storage.SaveMessagesNonempty →
      ∀ (eng : Val → Val → Val → EngineOutcome), (∀ p v rv, GoodOutcome (eng p v rv)) →
      ∀ (request : ResumeRequest) (st : σ) (now : Nat) (t : Task),
        (SequentialFlow.resume eng request storage st now).result = .ok t →
        TaskInvariant t) := by
  constructor
  · intro σ storage hsm eng hgood request st options genId now t h
    cases eng with
    | raises msg =>
        simp [SequentialFlow.execute] at h
        subst h
        exact taskInvariant_error _ rfl msg hgood rfl rfl rfl rfl rfl
    | returns r slot =>
        obtain ⟨gp, gc, ge⟩ := hgood
        by_cases hp : r.type = "pause"
        · by_cases hst : options.saveToStorage = true
          · simp [SequentialFlow.execute, hp, hst] at h
            split at h
            · simp at h
              subst h
              exact taskInvariant_paused _ rfl (gp hp).1 (gp hp).2.2 (gp hp).2.1
            · rename_i heq
              simp at h
              subst h
              exact taskInvariant_error _ rfl _ (hsm _ _ _ heq) rfl rfl rfl rfl rfl
          · simp [SequentialFlow.execute, hp, hst] at h
            subst h
            exact taskInvariant_paused _ rfl (gp hp).1 (gp hp).2.2 (gp hp).2.1
        · by_cases hc : r.type = "complete"
          · simp [SequentialFlow.execute, hp, hc] at h
            subst h
            obtain ⟨g1, g2, g3, g4⟩ := gc hc
            exact taskInvariant_completed _ rfl g1 g2 g3 rfl g4
          · simp [SequentialFlow.execute, hp, hc] at h
            subst h
            obtain ⟨⟨s, hs1, hs2⟩, hres, hstv, hfv⟩ := ge hp hc
            exact taskInvariant_error _ rfl s hs2 hs1 hres hstv rfl hfv
  · intro σ storage hsm eng hgood request st now t h
    cases hld : storage.load request.taskId st with
    | error m =>
        simp only [SequentialFlow.resume, hld] at h
        simp at h
    | ok o =>
      cases o with
      | none =>
          rw [resume_not_found eng request storage st now hld] at h
          simp at h
      | some stored =>
          simp only [SequentialFlow.resume, hld] at h
          cases hu : unwrapFetchResponse request.fetchResponse with
          | error msg =>
              simp only [hu, resumeCatch] at h
              cases hdl : storage.delete request.taskId st with
              | error m2 =>
                  simp only [hdl] at h
                  simp at h
              | ok st2 =>
                  simp only [hdl] at h
                  simp at h
                  subst h
                  exact taskInvariant_error _ rfl msg (unwrap_error_ne_empty _ _ hu)
                    rfl rfl rfl rfl rfl
          | ok rv =>
              simp only [hu] at h
              have g := hgood (restoredPaused request.pausedState stored.pausedState)
                request.vmState rv
              cases he : eng (restoredPaused request.pausedState stored.pausedState)
                  request.vmState rv with
              | raises msg =>
                  rw [he] at g
                  simp only [he, resumeCatch] at h
                  cases hdl : storage.delete request.taskId st with
                  | error m2 =>
                      simp only [hdl] at h
                      simp at h
                  | ok st2 =>
                      simp only [hdl] at h
                      simp at h
                      subst h
                      exact taskInvariant_error _ rfl msg g rfl rfl rfl rfl rfl
              | returns r slot =>
                  rw [he] at g
                  obtain ⟨gp, gc, ge⟩ := g
                  by_cases hp : r.type = "pause"
                  · simp only [he] at h
                    simp [hp, resumeCatch] at h
                    split at h
                    · simp at h
                      subst h
                      exact taskInvariant_paused _ rfl (gp hp).1 (gp hp).2.2 (gp hp).2.1
                    · rename_i heq
                      split at h
                      · simp at h
                        subst h
                        exact taskInvariant_error _ rfl _ (hsm _ _ _ heq)
                          rfl rfl rfl rfl rfl
                      · simp at h
                  · by_cases hc : r.type = "complete"
                    · simp only [he] at h
                      simp [hp, hc, resumeCatch] at h
                      split at h
                      · simp at h
                        subst h
                        obtain ⟨g1, g2, g3, g4⟩ := gc hc
                        exact taskInvariant_completed _ rfl g1 g2 g3 rfl g4
                      · simp at h
                    · simp only [he] at h
                      simp [hp, hc, resumeCatch] at h
                      split at h
                      · simp at h
                        subst h
                        obtain ⟨⟨s, hs1, hs2⟩, hres, hstv, hfv⟩ := ge hp hc
                        exact taskInvariant_error _ rfl s hs2 hs1 hres hstv rfl hfv
                      · simp at h

/-- A `complete`-typed engine result that nevertheless carries a state blob,
which the orchestrator copies into the returned task unchecked. -/
def badCompleteER : EngineResult :=
  { type := "complete", result := .vNum 1, state := .vObj [] }

/-- The task the counterexample run returns. -/
def c5Task : Task :=
  { id := "t5", name := "t5", code := "c", status := "completed",
    result := .vNum 1, vmState := .vObj [], pausedState := .vNull,
    createdAt := some 0, expiresAt := 7200000 }

/-- Counterexample to C5 as stated: over an arbitrary engine result,
`execute` can return a `status = completed` task whose `vmState` is neither
absent nor null — the orchestrator copies `result.state` into the task
without checking the discriminant. -/
theorem claim_c5_counterexample :
    (SequentialFlow.execute (.returns badCompleteER .vUndefined)
        { id := some "t5", code := "c" } trivialAdapter () {} "g" 0).result =
      .ok c5Task ∧
    c5Task.status = "completed" ∧ isNullish c5Task.vmState = false :=
  ⟨rfl, rfl, rfl⟩

theorem goodPause : GoodOutcome engPauseO := by
  refine ⟨fun _ => ⟨rfl, rfl, rfl⟩, fun hc => ?_, fun hp _ => ?_⟩
  · exact absurd hc (by decide)
  · exact absurd rfl hp

theorem goodCompleteF : ∀ p v rv, GoodOutcome (engCompleteF p v rv) := by
  intro p v rv
  refine ⟨fun hp => absurd hp (by decide),
    fun _ => ⟨fun hcon => Val.noConfusion hcon, rfl, rfl, rfl⟩,
    fun _ hc => absurd rfl hc⟩

theorem inMemory_saveMessages : InMemoryStorage.SaveMessagesNonempty :=
  fun _ _ _ h => Except.noConfusion h

/-- Witness for the amended C5 at a well-formed pausing execute run and a
well-formed completing resume run. -/
theorem claim_c5_witness : TaskInvariant c1Task ∧ TaskInvariant c1dTask :=
  ⟨claim_c5.1 MemState InMemoryStorage inMemory_saveMessages engPauseO goodPause
      { code := "c" } [] {} "g" 0 c1Task rfl,
   claim_c5.2 MemState InMemoryStorage inMemory_saveMessages engCompleteF goodCompleteF
      c1req [("t1", sampleTask)] 3 c1dTask rfl⟩

/-- Claim C10: the value handed to the engine's `resumeExecution` is
`fetchResponse.data` when that field is truthy and the entire `fetchResponse`
otherwise; in particular wrappers whose `data` field is falsy (`0`, `""`,
`false`, `null`) deliver the whole wrapper object. -/
theorem claim_c10 :
    (∀ (fr d : Val), getProp fr "data" = .ok d → truthy d = true →
      unwrapFetchResponse fr = .ok d) ∧
    (∀ (fr d : Val), getProp fr "data" = .ok d → truthy d = false →
      unwrapFetchResponse fr = .ok fr) ∧
    (∀ (σ : Type) (eng : Val → Val → Val → EngineOutcome) (request : ResumeRequest)
        (storage : StorageAdapter σ) (st : σ) (now : Nat) (vs rv : Val),
      Event.engineResume vs rv ∈
        (SequentialFlow.resume eng request storage st now).events →
      vs = request.vmState ∧
        unwrapFetchResponse request.fetchResponse = .ok rv) ∧
    unwrapFetchResponse (.vObj [("data", .vNum 0)]) =
      .ok (.vObj [("data", .vNum 0)]) ∧
    unwrapFetchResponse (.vObj [("data", .vStr "")]) =
      .ok (.vObj [("data", .vStr "")]) ∧
    unwrapFetchResponse (.vObj [("data", .vBool false)]) =
      .ok (.vObj [("data", .vBool false)]) ∧
    unwrapFetchResponse (.vObj [("data", .vNull)]) =
      .ok (.vObj [("data", .vNull)]) := by
  refine ⟨?_, ?_, ?_, rfl, rfl, rfl, rfl⟩
  · intro fr d h ht
    simp [unwrapFetchResponse, h, ht]
  · intro fr d h ht
    simp [unwrapFetchResponse, h, ht]
  · intro σ eng request storage st now vs rv h
    simp only [SequentialFlow.resume, resumeCatch] at h
    repeat' split at h
    all_goals simp_all

/-- Witness for C10: a truthy `data` field is unwrapped to its value, and a
concrete resume run hands the engine the request's `vmState` together with
the unwrapped response. -/
theorem claim_c10_witness :
    unwrapFetchResponse (.vObj [("data", .vNum 1)]) = .ok (.vNum 1) ∧
    ((.vObj [] : Val) = c1req.vmState ∧
      unwrapFetchResponse c1req.fetchResponse = .ok (.vNum 1)) :=
  ⟨claim_c10.1 (.vObj [("data", .vNum 1)]) (.vNum 1) rfl rfl,
   claim_c10.2.2.1 MemState engPauseF c1req InMemoryStorage [("t1", sampleTask)] 3
     (.vObj []) (.vNum 1) (List.Mem.head _)⟩

end SeqFlow
